import Mathlib

/-!
Verification development for the lane-boundary tracking engine of
`src/graph.py` (class `Graph`): a shallow embedding of
`Graph.find_lane_pixels` and `Graph.fit_polynomial`, together with theorems
about the histogram base locator, the base drift validation, the sliding
window tracker, the lane-width history and the curve-fit stage.

Conventions of the embedding:
* a binary warped image (`binary_warped`) is a `Mask`: a height, a width and
  a total pixel function; the faithful slicing below only ever reads pixels
  inside the `H × W` grid;
* machine integers are `Nat`/`Int`; numpy float expressions appear in two
  places only: the drift-ratio comparison `abs((last - new) / new) > 0.1`,
  embedded as the exact rational comparison (which agrees with the float64
  comparison for all integer magnitudes below `10^15`, far beyond any image
  width, and with numpy inf/nan semantics when `new = 0`), and the
  polynomial fit / average, embedded over `ℚ`;
* numpy calls that raise (`np.max` and `np.argmax` on an empty array, the
  `TypeError` of `None - int`) are embedded with `Except PyErr`;
* Python's negative-index slice normalization `a[lo:hi]` is embedded by
  `pyIdx`/`sliceCols`;
* `int(x)` applied to a nonnegative or truncated float quotient is embedded
  with `Int.tdiv` (truncation toward zero, as `int()` on a float).
-/

set_option linter.unusedVariables false
set_option maxRecDepth 40000

/-- Decidable equality of `Except` results, for evaluating the embedding on
concrete masks. -/
instance {e a : Type} [DecidableEq e] [DecidableEq a] :
    DecidableEq (Except e a) := fun x y =>
  match x, y with
  | .ok u, .ok v =>
    if h : u = v then isTrue (by rw [h])
    else isFalse (by intro hc; cases hc; exact h rfl)
  | .error u, .error v =>
    if h : u = v then isTrue (by rw [h])
    else isFalse (by intro hc; cases hc; exact h rfl)
  | .ok _, .error _ => isFalse (by intro hc; cases hc)
  | .error _, .ok _ => isFalse (by intro hc; cases hc)

namespace Graph

/-- Errors raised by the numpy/Python operations this code can hit:
`ValueError` (reduction of an empty array), `TypeError` (`None` in
arithmetic), `NameError` (reading an unassigned local, i.e.
`UnboundLocalError`). -/
inductive PyErr where
  | valueError
  | typeError
  | nameError
deriving DecidableEq, Repr

/-- A binary warped image: `H` rows, `W` columns, and the pixel value at
(row, column). Pixels outside the grid are never read by the embedding. -/
structure Mask where
  H : Nat
  W : Nat
  pix : Nat → Nat → Nat

/-- Sum of the values of column `c` over the row range `[r0, r1)`:
`np.sum(image[r0:r1, ...], axis=0)` at one column. An empty row range sums
to 0, exactly as numpy sums an empty axis. -/
def colSumRange (m : Mask) (r0 r1 c : Nat) : Nat :=
  ((List.range (r1 - r0)).map (fun k => m.pix (r0 + k) c)).sum

/-- `np.max` of a nonempty list of nonnegative integers (callers guard
emptiness, where numpy raises `ValueError`). -/
def npMax (l : List Nat) : Nat := l.foldr max 0

/-- `np.argmax` of a nonempty list: index of the first occurrence of the
maximum value. -/
def npArgmax (l : List Nat) : Nat := l.indexOf (npMax l)

/-- Bottom-half column histogram of the mask
(`np.sum(binary_warped[binary_warped.shape[0] // 2:, :], axis=0)`),
at column `c`. -/
def histogramOf (m : Mask) (c : Nat) : Nat := colSumRange m (m.H / 2) m.H c

/-- `midpoint = np.int(histogram.shape[0] // 2)`. -/
def midpointOf (m : Mask) : Nat := m.W / 2

/-- The left half `histogram[:midpoint]` as a list. -/
def leftHalfHist (m : Mask) : List Nat :=
  (List.range (midpointOf m)).map (histogramOf m)

/-- The right half `histogram[midpoint:]` as a list. -/
def rightHalfHist (m : Mask) : List Nat :=
  (List.range (m.W - midpointOf m)).map (fun i => histogramOf m (midpointOf m + i))

/-- `leftx_base = np.argmax(histogram[:midpoint])`. -/
def leftxBase0 (m : Mask) : Nat := npArgmax (leftHalfHist m)

/-- `rightx_base = np.argmax(histogram[midpoint:]) + midpoint`. -/
def rightxBase0 (m : Mask) : Nat := npArgmax (rightHalfHist m) + midpointOf m

/-- The drift test `np.absolute((last - new) / new) > 0.1` on integer
inputs. For `new ≠ 0` the float64 comparison agrees with the exact rational
comparison `10 * |last - new| > |new|` for all realistic magnitudes. For
`new = 0`, numpy evaluates `x / 0` to `±inf` (if `x ≠ 0`, whose absolute
value is `> 0.1`) or to `nan` (if `x = 0`, and `nan > 0.1` is false). -/
def driftGT (last new : Int) : Bool :=
  if new = 0 then last != 0
  else decide (new.natAbs < 10 * (last - new).natAbs)

/-- Lines 387-390: if a previous left base exists and the drift test fires,
keep the previous left base, else keep the new histogram peak. -/
def validateLeft (lastLeft : Option Int) (newLeft : Int) : Int :=
  match lastLeft with
  | none => newLeft
  | some ll => if driftGT ll newLeft then ll else newLeft

/-- Lines 391-394: the right-side guard. Faithful to the source, the drift
test compares `last_left_base` (not `last_right_base`) with the new right
base; if `last_right_base` is given while `last_left_base` is `None`,
`last_left_base - rightx_base` raises a `TypeError`. -/
def validateRight (lastLeft lastRight : Option Int) (newRight : Int) :
    Except PyErr Int :=
  match lastRight with
  | none => .ok newRight
  | some lr =>
    match lastLeft with
    | none => .error PyErr.typeError
    | some ll => .ok (if driftGT ll newRight then lr else newRight)

/-- `nwindows = 15`. -/
def nwindows : Nat := 15

/-- `margin = 100`. -/
def margin : Nat := 100

/-- `minpix = 50` (declared in the source, never used afterwards). -/
def minpix : Nat := 50

/-- `min_pixels = 10*255`, the column-mass acceptance threshold. -/
def minPixels : Nat := 10 * 255

/-- The sliding-window state threaded through the per-band loop:
`leftx_current`, `rightx_current`, `prev_lane_dist`, `lane_dist_hist` and
the two growing lane-point lists. -/
structure TrackState where
  leftxCurrent : Int
  rightxCurrent : Int
  prevLaneDist : Int
  laneDistHist : List Int
  leftLanePoints : List (Int × Int)
  rightLanePoints : List (Int × Int)
deriving DecidableEq, Repr

/-- `window_height = np.int(binary_warped.shape[0] // nwindows)`. -/
def windowHeight (m : Mask) : Nat := m.H / nwindows

/-- `win_y_low = binary_warped.shape[0] - (window+1)*window_height`,
clamped to 0 by lines 433-434. -/
def winYLowOf (m : Mask) (w : Nat) : Int :=
  if (m.H : Int) - (w + 1) * (windowHeight m : Int) < 0 then 0
  else (m.H : Int) - (w + 1) * (windowHeight m : Int)

/-- `win_y_high = binary_warped.shape[0] - window*window_height`. -/
def winYHighOf (m : Mask) (w : Nat) : Int :=
  (m.H : Int) - w * (windowHeight m : Int)

/-- `win_xleft_low = leftx_current - margin`, clamped to 0 by
lines 431-432. -/
def winXLeftLowOf (st : TrackState) : Int :=
  if st.leftxCurrent - (margin : Int) < 0 then 0
  else st.leftxCurrent - (margin : Int)

/-- `win_xleft_high = leftx_current + margin`. -/
def winXLeftHighOf (st : TrackState) : Int := st.leftxCurrent + (margin : Int)

/-- `win_xright_low = rightx_current - margin` (the source has no clamp on
this edge). -/
def winXRightLowOf (st : TrackState) : Int := st.rightxCurrent - (margin : Int)

/-- `win_xright_high = rightx_current + margin`. -/
def winXRightHighOf (st : TrackState) : Int := st.rightxCurrent + (margin : Int)

/-- `y_index = int((win_y_low + win_y_high) / 2)` (both operands are
nonnegative, so float truncation is integer division). -/
def yIndexOf (m : Mask) (w : Nat) : Int :=
  Int.tdiv (winYLowOf m w + winYHighOf m w) 2

/-- Python slice-bound normalization for an axis of length `W`: a negative
bound counts from the end (clamped to 0), a nonnegative bound is clamped
to `W`. -/
def pyIdx (W : Nat) (a : Int) : Nat :=
  if a < 0 then (a + (W : Int)).toNat else min a.toNat W

/-- The absolute column indices selected by the slice `[lo:hi]` on an axis
of length `W`. -/
def sliceCols (W : Nat) (lo hi : Int) : List Nat :=
  List.range' (pyIdx W lo) (pyIdx W hi - pyIdx W lo)

/-- Lines 437-456 for one side: slice the sub-region, column-sum it
(`l_area_hist` / `r_area_hist`), accept the argmax column mapped back by
adding the raw low bound if its mass exceeds `min_pixels`, and also treat a
candidate equal to the raw low bound as not found. `np.max` of an empty
sub-region (zero selected columns) raises `ValueError`. -/
def sideCandidate (m : Mask) (yLow yHigh : Nat) (xLow xHigh : Int) :
    Except PyErr (Option Int) :=
  if sliceCols m.W xLow xHigh = [] then .error PyErr.valueError
  else
    if minPixels <
        npMax ((sliceCols m.W xLow xHigh).map
          (fun col => colSumRange m yLow yHigh col)) then
      if ((npArgmax ((sliceCols m.W xLow xHigh).map
            (fun col => colSumRange m yLow yHigh col)) : Nat) : Int) + xLow = xLow
      then .ok none
      else .ok (some (((npArgmax ((sliceCols m.W xLow xHigh).map
            (fun col => colSumRange m yLow yHigh col)) : Nat) : Int) + xLow))
    else .ok none

/-- Lines 457-477: the four recentering outcomes, the point emission and the
state update for one band. -/
def resolveOutcome (st : TrackState) (lOpt rOpt : Option Int)
    (lLow lHigh rLow rHigh yIdx : Int) : TrackState :=
  match lOpt, rOpt with
  | some l, some r =>
    { leftxCurrent := l, rightxCurrent := r, prevLaneDist := r - l,
      laneDistHist := st.laneDistHist ++ [r - l],
      leftLanePoints := st.leftLanePoints ++ [(l, yIdx)],
      rightLanePoints := st.rightLanePoints ++ [(r, yIdx)] }
  | none, none =>
    let l := Int.tdiv (lLow + lHigh) 2
    let r := Int.tdiv (rLow + rHigh) 2
    { leftxCurrent := l, rightxCurrent := r, prevLaneDist := st.prevLaneDist,
      laneDistHist := st.laneDistHist,
      leftLanePoints := st.leftLanePoints ++ [(l, yIdx)],
      rightLanePoints := st.rightLanePoints ++ [(r, yIdx)] }
  | none, some r =>
    let l := r - st.prevLaneDist
    { leftxCurrent := l, rightxCurrent := r, prevLaneDist := st.prevLaneDist,
      laneDistHist := st.laneDistHist,
      leftLanePoints := st.leftLanePoints ++ [(l, yIdx)],
      rightLanePoints := st.rightLanePoints ++ [(r, yIdx)] }
  | some l, none =>
    let r := l + st.prevLaneDist
    { leftxCurrent := l, rightxCurrent := r, prevLaneDist := st.prevLaneDist,
      laneDistHist := st.laneDistHist,
      leftLanePoints := st.leftLanePoints ++ [(l, yIdx)],
      rightLanePoints := st.rightLanePoints ++ [(r, yIdx)] }

/-- One iteration of the `for window in range(nwindows)` loop
(lines 424-477): the left sub-region is reduced first, then the right one
(matching the evaluation order of lines 442 and 446), then the band is
resolved. -/
def processWindow (m : Mask) (st : TrackState) (w : Nat) :
    Except PyErr TrackState :=
  match sideCandidate m (winYLowOf m w).toNat (winYHighOf m w).toNat
      (winXLeftLowOf st) (winXLeftHighOf st) with
  | .error e => .error e
  | .ok lOpt =>
    match sideCandidate m (winYLowOf m w).toNat (winYHighOf m w).toNat
        (winXRightLowOf st) (winXRightHighOf st) with
    | .error e => .error e
    | .ok rOpt =>
      .ok (resolveOutcome st lOpt rOpt (winXLeftLowOf st) (winXLeftHighOf st)
            (winXRightLowOf st) (winXRightHighOf st) (yIndexOf m w))

/-- The bands `start, start+1, …, start+count-1`, processed strictly in
order. -/
def runBands (m : Mask) : Nat → Nat → TrackState → Except PyErr TrackState
  | _, 0, st => .ok st
  | start, count + 1, st =>
    match processWindow m st start with
    | .error e => .error e
    | .ok st' => runBands m (start + 1) count st'

/-- Lines 404-418: the state before the first band; `lane_dist_hist` is
seeded with `prev_lane_dist = rightx_base - leftx_base`. -/
def initState (lb rb : Int) : TrackState :=
  { leftxCurrent := lb, rightxCurrent := rb, prevLaneDist := rb - lb,
    laneDistHist := [rb - lb], leftLanePoints := [], rightLanePoints := [] }

/-- `Graph.find_lane_pixels` (lines 366-489), up to the returned
visualization image: histogram peaks, base validation, the 15-band loop.
`np.argmax(histogram[:midpoint])` raises `ValueError` when `midpoint = 0`.
Returns the final loop state together with the validated bases. -/
def findLanePixelsSt (m : Mask) (lastLeft lastRight : Option Int) :
    Except PyErr (TrackState × Int × Int) :=
  if midpointOf m = 0 then .error PyErr.valueError
  else
    let lb := validateLeft lastLeft ((leftxBase0 m : Nat) : Int)
    match validateRight lastLeft lastRight ((rightxBase0 m : Nat) : Int) with
    | .error e => .error e
    | .ok rb =>
      match runBands m 0 nwindows (initState lb rb) with
      | .error e => .error e
      | .ok st => .ok (st, lb, rb)

/-- `avg_lane_dist = np.average(lane_dist_hist)` (line 488), as an exact
rational mean. -/
def npAverage (l : List Int) : ℚ := ((l.sum : Int) : ℚ) / (l.length : ℚ)

/-- The tuple actually returned by `find_lane_pixels` (minus the
visualization image): left points, right points, average lane distance and
the two bases. -/
def findLanePixels (m : Mask) (lastLeft lastRight : Option Int) :
    Except PyErr (List (Int × Int) × List (Int × Int) × ℚ × Int × Int) :=
  match findLanePixelsSt m lastLeft lastRight with
  | .error e => .error e
  | .ok (st, lb, rb) =>
    .ok (st.leftLanePoints, st.rightLanePoints, npAverage st.laneDistHist, lb, rb)

/-- `np.polyfit(points_y, points_x, deg=2)` : least-squares quadratic
`x = a*y^2 + b*y + c`, embedded over `ℚ` through the normal equations and
Cramer's rule. numpy solves the same least-squares problem in float64; on a
rank-deficient system it warns and returns a least-squares solution, which
no theorem below depends on (the embedding returns `(0,0,0)` there). -/
def polyfit2 (pts : List (Int × Int)) : ℚ × ℚ × ℚ :=
  let ys : List ℚ := pts.map (fun p => ((p.2 : Int) : ℚ))
  let xs : List ℚ := pts.map (fun p => ((p.1 : Int) : ℚ))
  let s0 : ℚ := (pts.length : ℚ)
  let s1 := ys.sum
  let s2 := (ys.map (fun y => y ^ 2)).sum
  let s3 := (ys.map (fun y => y ^ 3)).sum
  let s4 := (ys.map (fun y => y ^ 4)).sum
  let t0 := xs.sum
  let t1 := ((xs.zip ys).map (fun p => p.1 * p.2)).sum
  let t2 := ((xs.zip ys).map (fun p => p.1 * p.2 ^ 2)).sum
  let det := s4 * (s2 * s0 - s1 * s1) - s3 * (s3 * s0 - s1 * s2)
    + s2 * (s3 * s1 - s2 * s2)
  if det = 0 then (0, 0, 0)
  else
    let a := (t2 * (s2 * s0 - s1 * s1) - s3 * (t1 * s0 - t0 * s1)
      + s2 * (t1 * s1 - t0 * s2)) / det
    let b := (s4 * (t1 * s0 - s1 * t0) - t2 * (s3 * s0 - s1 * s2)
      + s2 * (s3 * t0 - t1 * s2)) / det
    let c := (s4 * (s2 * t0 - t1 * s1) - s3 * (s3 * t0 - t1 * s2)
      + t2 * (s3 * s1 - s2 * s2)) / det
    (a, b, c)

/-- `fit[0]*ploty**2 + fit[1]*ploty + fit[2]` over
`ploty = np.linspace(0, H-1, H)` = `0, 1, …, H-1`. -/
def sampleCurve (co : ℚ × ℚ × ℚ) (H : Nat) : List ℚ :=
  (List.range H).map (fun y => co.1 * (y : ℚ) ^ 2 + co.2.1 * (y : ℚ) + co.2.2)

/-- The `except TypeError` fallback curve `1*ploty**2 + 1*ploty`
(lines 360-361). -/
def fallbackCurve (H : Nat) : List ℚ :=
  (List.range H).map (fun y => 1 * (y : ℚ) ^ 2 + 1 * (y : ℚ))

/-- The value bundle returned by the fit stage of `fit_polynomial`
(minus the visualization image). -/
structure FitOutput where
  leftFit : ℚ × ℚ × ℚ
  rightFit : ℚ × ℚ × ℚ
  leftFitx : List ℚ
  rightFitx : List ℚ
  ploty : List ℚ
deriving DecidableEq, Repr

/-- Lines 341-363 of `fit_polynomial`: the per-side fits are assigned only
when that side has at least 3 points (Python locals, so an unassigned fit
is an unbound name); the `try` block reads `left_fit` then `right_fit`,
raising `NameError` (`UnboundLocalError`) on an unbound one; the `except`
clause catches `TypeError` only; the `return` statement reads `left_fit`
and `right_fit` again. -/
def fitStage (leftPts rightPts : List (Int × Int)) (H : Nat) :
    Except PyErr FitOutput :=
  let leftFitOpt : Option (ℚ × ℚ × ℚ) :=
    if 3 ≤ leftPts.length then some (polyfit2 leftPts) else none
  let rightFitOpt : Option (ℚ × ℚ × ℚ) :=
    if 3 ≤ rightPts.length then some (polyfit2 rightPts) else none
  let tryRes : Except PyErr (List ℚ × List ℚ) :=
    match leftFitOpt with
    | none => .error PyErr.nameError
    | some lf =>
      match rightFitOpt with
      | none => .error PyErr.nameError
      | some rf => .ok (sampleCurve lf H, sampleCurve rf H)
  let handled : Except PyErr (List ℚ × List ℚ) :=
    match tryRes with
    | .error PyErr.typeError => .ok (fallbackCurve H, fallbackCurve H)
    | other => other
  match handled with
  | .error e => .error e
  | .ok (lfx, rfx) =>
    match leftFitOpt, rightFitOpt with
    | some lf, some rf =>
      .ok { leftFit := lf, rightFit := rf, leftFitx := lfx, rightFitx := rfx,
            ploty := (List.range H).map (fun y => (y : ℚ)) }
    | _, _ => .error PyErr.nameError

/-- `Graph.fit_polynomial` (lines 337-363): run `find_lane_pixels`, then the
fit stage on the resulting point sequences. -/
def fitPolynomial (m : Mask) (lastLeft lastRight : Option Int) :
    Except PyErr (FitOutput × ℚ × Int × Int) :=
  match findLanePixelsSt m lastLeft lastRight with
  | .error e => .error e
  | .ok (st, lb, rb) =>
    match fitStage st.leftLanePoints st.rightLanePoints m.H with
    | .error e => .error e
    | .ok fo => .ok (fo, npAverage st.laneDistHist, lb, rb)

/-! Concrete masks used to evaluate the embedding. -/

/-- A mask whose only bright pixels are a full-height vertical band at
column `c` with pixel value `v`. -/
def vbandMask (H W c v : Nat) : Mask :=
  { H := H, W := W, pix := fun _ x => if x = c then v else 0 }

/-- 2×400 mask whose bottom-half histogram peaks are column 150 on the
left half and column 310 on the right half. -/
def c1Mask : Mask :=
  { H := 2, W := 400,
    pix := fun r c =>
      if r = 1 then (if c = 310 then 5 else if c = 150 then 4 else 0) else 0 }

/-- 15×302 mask: a full-height bright band (value 3000) at column 50 and an
empty right half. Each one-row window over column 50 has mass
`3000 > 2550`, and the right search window `[51, 251)` never meets
column 50. -/
def gapMask : Mask :=
  { H := 15, W := 302, pix := fun _ c => if c = 50 then 3000 else 0 }

/-- 15×200 mask: mass 3000 at column 5 of the bottom row only. Band 0 finds
both sides at column 5, pulling `rightx_current` down to 5, so band 1's
right window is `[-95, 105)`, an empty Python slice. -/
def crashMask : Mask :=
  { H := 15, W := 200,
    pix := fun r c => if r = 14 then (if c = 5 then 3000 else 0) else 0 }

/-- 2×10 all-zero mask: both histogram halves are flat, so the left peak is
the degenerate column 0. -/
def zeroMask : Mask :=
  { H := 2, W := 10, pix := fun _ _ => 0 }

/-- 2×400 mask with a bottom-row peak at column 130 (left half). -/
def c4m130 : Mask :=
  { H := 2, W := 400,
    pix := fun r c => if r = 1 then (if c = 130 then 7 else 0) else 0 }

/-- 2×400 mask with a bottom-row peak at column 105 (left half). -/
def c4m105 : Mask :=
  { H := 2, W := 400,
    pix := fun r c => if r = 1 then (if c = 105 then 7 else 0) else 0 }

/-- 2×300 mask with a bottom-row mass of 3000 at column 130. -/
def c5Mask : Mask :=
  { H := 2, W := 300,
    pix := fun r c => if r = 1 then (if c = 130 then 3000 else 0) else 0 }

/-- The tracker state after the 15 bands of `gapMask` (checked by kernel
evaluation in `gapRunEq`). -/
def stGapLit : TrackState :=
  { leftxCurrent := 50, rightxCurrent := 151, prevLaneDist := 101,
    laneDistHist := [101],
    leftLanePoints := [(50, 14), (50, 13), (50, 12), (50, 11), (50, 10),
      (50, 9), (50, 8), (50, 7), (50, 6), (50, 5), (50, 4), (50, 3),
      (50, 2), (50, 1), (50, 0)],
    rightLanePoints := [(151, 14), (151, 13), (151, 12), (151, 11), (151, 10),
      (151, 9), (151, 8), (151, 7), (151, 6), (151, 5), (151, 4), (151, 3),
      (151, 2), (151, 1), (151, 0)] }

/-- The tracker state after band 0 of `crashMask`: both sides were found at
column 5, so `rightx_current` dropped from 100 to 5. -/
def stCrash1 : TrackState :=
  { leftxCurrent := 5, rightxCurrent := 5, prevLaneDist := 0,
    laneDistHist := [95, 0],
    leftLanePoints := [(5, 14)], rightLanePoints := [(5, 14)] }

/-- Kernel evaluation of the full 15-band run on `gapMask`. -/
theorem gapRunEq : findLanePixelsSt gapMask none none = .ok (stGapLit, 50, 151) := by
  decide

/-- Kernel evaluation of the run on `crashMask`: band 1's right window is the
empty slice `[-95:105]`, so `np.max` raises `ValueError`. -/
theorem crashRunEq : findLanePixelsSt crashMask none none = .error PyErr.valueError := by
  decide

/-! ### Lemmas about `npMax` and `npArgmax` -/

theorem npMax_cons (a : Nat) (t : List Nat) : npMax (a :: t) = max a (npMax t) := rfl

theorem npMax_mem : ∀ {l : List Nat}, l ≠ [] → npMax l ∈ l
  | [], h => absurd rfl h
  | a :: t, _ => by
    rw [npMax_cons]
    rcases Nat.le_total (npMax t) a with h1 | h1
    · rw [Nat.max_eq_left h1]; exact List.mem_cons_self a t
    · rcases eq_or_ne t [] with rfl | ht
      · have : npMax ([] : List Nat) = 0 := rfl
        rw [this, Nat.max_zero]; exact List.mem_cons_self a []
      · rw [Nat.max_eq_right h1]; exact List.mem_cons_of_mem a (npMax_mem ht)

theorem le_npMax : ∀ {a : Nat} {l : List Nat}, a ∈ l → a ≤ npMax l
  | _, b :: t, h => by
    rw [npMax_cons]
    rcases List.mem_cons.1 h with rfl | h2
    · exact Nat.le_max_left _ _
    · exact Nat.le_trans (le_npMax h2) (Nat.le_max_right _ _)

theorem npArgmax_lt_length {l : List Nat} (h : l ≠ []) : npArgmax l < l.length :=
  List.indexOf_lt_length.2 (npMax_mem h)

theorem get_npArgmax {l : List Nat} (h : npArgmax l < l.length) :
    l.get ⟨npArgmax l, h⟩ = npMax l :=
  List.indexOf_get h

/-- `np.argmax` of the image of `0, …, n-1` under a function that is zero
everywhere except at `c`, where it is positive, is exactly `c`. -/
theorem npArgmax_map_range (f : Nat → Nat) (n c : Nat) (hc : c < n)
    (hpos : 0 < f c) (hz : ∀ i, i ≠ c → f i = 0) :
    npArgmax ((List.range n).map f) = c := by
  have hmem : f c ∈ (List.range n).map f :=
    List.mem_map.2 ⟨c, List.mem_range.2 hc, rfl⟩
  have hub : ∀ a ∈ (List.range n).map f, a ≤ f c := by
    intro a ha
    rcases List.mem_map.1 ha with ⟨i, _, rfl⟩
    rcases eq_or_ne i c with rfl | hne
    · exact Nat.le_refl _
    · rw [hz i hne]; exact Nat.zero_le _
  have hne : (List.range n).map f ≠ [] := by
    intro hnil; rw [hnil] at hmem; exact absurd hmem (List.not_mem_nil _)
  have hmax : npMax ((List.range n).map f) = f c :=
    Nat.le_antisymm (hub _ (npMax_mem hne)) (le_npMax hmem)
  have hsplit : List.range n = List.range' 0 c ++ List.range' c (n - c) := by
    have h1 := List.range'_append 0 c (n - c) 1
    simp only [Nat.zero_add, Nat.one_mul] at h1
    rw [List.range_eq_range']
    conv_lhs => rw [show n = n - c + c from by omega]
    exact h1.symm
  have hnotmem : f c ∉ (List.range' 0 c).map f := by
    intro hmem2
    rcases List.mem_map.1 hmem2 with ⟨i, hi, hfi⟩
    have hi2 := List.mem_range'_1.1 hi
    have hine : i ≠ c := by omega
    rw [hz i hine] at hfi
    omega
  have hidx : npArgmax ((List.range n).map f) =
      List.indexOf (f c) ((List.range n).map f) := by
    rw [npArgmax, hmax]
  rw [hidx, hsplit, List.map_append, List.indexOf_append_of_not_mem hnotmem]
  have hlen : ((List.range' 0 c).map f).length = c := by
    simp [List.length_range']
  have hnc : n - c = (n - c - 1) + 1 := by omega
  rw [hlen, hnc, List.range'_succ, List.map_cons, List.indexOf_cons_self]
  omega

/-! ### Lemmas about the histogram of a single vertical band -/

theorem sum_map_const (n v : Nat) :
    ((List.range n).map (fun _ : Nat => v)).sum = n * v := by
  induction n with
  | zero => simp
  | succ k ih =>
    rw [List.range_succ, List.map_append, List.sum_append, ih]
    simp [Nat.succ_mul]

/-- The bottom-half histogram of `vbandMask H W c v` is `(H - H/2) * v` at
column `c` and `0` elsewhere. -/
theorem histogramOf_vband (H W c v x : Nat) :
    histogramOf (vbandMask H W c v) x = if x = c then (H - H / 2) * v else 0 := by
  have hfun : (fun k => (vbandMask H W c v).pix (H / 2 + k) x)
      = fun _ : Nat => (if x = c then v else 0) := by
    funext k; rfl
  unfold histogramOf colSumRange
  rw [show (vbandMask H W c v).H = H from rfl, hfun, sum_map_const]
  by_cases hx : x = c
  · rw [if_pos hx, if_pos hx]
  · rw [if_neg hx, if_neg hx, Nat.mul_zero]

/-! ### The drift test as an exact rational inequality -/

/-- For a nonzero new base, the embedded drift test is exactly the rational
comparison `|((last - new) / new)| > 0.1` of the source. -/
theorem driftGT_iff (last new : Int) (h : new ≠ 0) :
    driftGT last new = true ↔
      (1 : ℚ) / 10 < |((last : ℚ) - (new : ℚ)) / (new : ℚ)| := by
  unfold driftGT
  rw [if_neg h, decide_eq_true_iff]
  have hb : (0 : ℚ) < |((new : Int) : ℚ)| := by
    rw [abs_pos]
    exact_mod_cast h
  rw [abs_div, div_lt_div_iff (by norm_num) hb]
  have eB : |((new : Int) : ℚ)| = ((new.natAbs : ℕ) : ℚ) := by
    rw [Int.cast_natAbs, Int.cast_abs]
  have eA : |((last : Int) : ℚ) - ((new : Int) : ℚ)| = (((last - new).natAbs : ℕ) : ℚ) := by
    rw [show ((last : ℚ) - (new : ℚ)) = (((last - new : Int) : Int) : ℚ) from by
      push_cast; ring]
    rw [Int.cast_natAbs, Int.cast_abs]
  rw [eA, eB, one_mul, mul_comm]
  exact_mod_cast Iff.rfl

/-! ### Shape lemmas for the per-band step -/

/-- A successful band appends exactly one point per side, both at the band's
`y_index`. -/
theorem processWindow_points {m : Mask} {st st' : TrackState} {w : Nat}
    (h : processWindow m st w = .ok st') :
    ∃ lx rx,
      st'.leftLanePoints = st.leftLanePoints ++ [(lx, yIndexOf m w)] ∧
      st'.rightLanePoints = st.rightLanePoints ++ [(rx, yIndexOf m w)] := by
  unfold processWindow at h
  cases hl : sideCandidate m (winYLowOf m w).toNat (winYHighOf m w).toNat
      (winXLeftLowOf st) (winXLeftHighOf st) with
  | error e => rw [hl] at h; exact Except.noConfusion h
  | ok lOpt =>
    cases hr : sideCandidate m (winYLowOf m w).toNat (winYHighOf m w).toNat
        (winXRightLowOf st) (winXRightHighOf st) with
    | error e => rw [hl, hr] at h; exact Except.noConfusion h
    | ok rOpt =>
      rw [hl, hr] at h
      injection h with h2
      subst h2
      cases lOpt with
      | some l =>
        cases rOpt with
        | some r => exact ⟨l, r, rfl, rfl⟩
        | none => exact ⟨l, l + st.prevLaneDist, rfl, rfl⟩
      | none =>
        cases rOpt with
        | some r => exact ⟨r - st.prevLaneDist, r, rfl, rfl⟩
        | none =>
          exact ⟨Int.tdiv (winXLeftLowOf st + winXLeftHighOf st) 2,
                 Int.tdiv (winXRightLowOf st + winXRightHighOf st) 2, rfl, rfl⟩

/-- A successful band either leaves the width history and `prev_lane_dist`
unchanged, or appends the new `prev_lane_dist` to the history. -/
theorem processWindow_hist {m : Mask} {st st' : TrackState} {w : Nat}
    (h : processWindow m st w = .ok st') :
    (st'.laneDistHist = st.laneDistHist ∧ st'.prevLaneDist = st.prevLaneDist) ∨
    st'.laneDistHist = st.laneDistHist ++ [st'.prevLaneDist] := by
  unfold processWindow at h
  cases hl : sideCandidate m (winYLowOf m w).toNat (winYHighOf m w).toNat
      (winXLeftLowOf st) (winXLeftHighOf st) with
  | error e => rw [hl] at h; exact Except.noConfusion h
  | ok lOpt =>
    cases hr : sideCandidate m (winYLowOf m w).toNat (winYHighOf m w).toNat
        (winXRightLowOf st) (winXRightHighOf st) with
    | error e => rw [hl, hr] at h; exact Except.noConfusion h
    | ok rOpt =>
      rw [hl, hr] at h
      injection h with h2
      subst h2
      cases lOpt with
      | some l =>
        cases rOpt with
        | some r => exact Or.inr rfl
        | none => exact Or.inl ⟨rfl, rfl⟩
      | none =>
        cases rOpt with
        | some r => exact Or.inl ⟨rfl, rfl⟩
        | none => exact Or.inl ⟨rfl, rfl⟩

/-- Over a successful run of `count` bands starting at band `start`, each
side gains exactly `count` points, in band order, each at its band's
`y_index`. -/
theorem runBands_points (m : Mask) :
    ∀ (count start : Nat) (st st' : TrackState),
      runBands m start count st = .ok st' →
      ∃ L R : List (Int × Int),
        st'.leftLanePoints = st.leftLanePoints ++ L ∧
        st'.rightLanePoints = st.rightLanePoints ++ R ∧
        L.length = count ∧ R.length = count ∧
        (∀ j (hj : j < L.length), (L.get ⟨j, hj⟩).2 = yIndexOf m (start + j)) ∧
        (∀ j (hj : j < R.length), (R.get ⟨j, hj⟩).2 = yIndexOf m (start + j))
  | 0, start, st, st', h => by
    unfold runBands at h
    injection h with h2
    subst h2
    refine ⟨[], [], by simp, by simp, rfl, rfl, ?_, ?_⟩
    · intro j hj; exact absurd hj (by simp)
    · intro j hj; exact absurd hj (by simp)
  | count + 1, start, st, st', h => by
    unfold runBands at h
    cases hpw : processWindow m st start with
    | error e => rw [hpw] at h; exact Except.noConfusion h
    | ok st1 =>
      rw [hpw] at h
      rcases processWindow_points hpw with ⟨lx, rx, hL1, hR1⟩
      rcases runBands_points m count (start + 1) st1 st' h with
        ⟨L, R, hL, hR, hLl, hRl, hLy, hRy⟩
      refine ⟨(lx, yIndexOf m start) :: L, (rx, yIndexOf m start) :: R,
        ?_, ?_, ?_, ?_, ?_, ?_⟩
      · rw [hL, hL1]; simp
      · rw [hR, hR1]; simp
      · simp [hLl]
      · simp [hRl]
      · intro j hj
        match j with
        | 0 => simp
        | Nat.succ j =>
          have hj' : j < L.length := by simpa using hj
          have h3 := hLy j hj'
          rw [List.get_cons_succ]
          rw [show start + (j + 1) = start + 1 + j from by omega]
          exact h3
      · intro j hj
        match j with
        | 0 => simp
        | Nat.succ j =>
          have hj' : j < R.length := by simpa using hj
          have h3 := hRy j hj'
          rw [List.get_cons_succ]
          rw [show start + (j + 1) = start + 1 + j from by omega]
          exact h3

/-- Over a successful run of bands, the width history stays nonempty, keeps
its first element, and its last element stays equal to `prev_lane_dist`. -/
theorem runBands_hist (m : Mask) :
    ∀ (count start : Nat) (st st' : TrackState),
      runBands m start count st = .ok st' →
      st.laneDistHist ≠ [] →
      st.laneDistHist.getLast? = some st.prevLaneDist →
      st'.laneDistHist ≠ [] ∧
      st'.laneDistHist.head? = st.laneDistHist.head? ∧
      st'.laneDistHist.getLast? = some st'.prevLaneDist
  | 0, start, st, st', h => by
    unfold runBands at h
    injection h with h2
    subst h2
    intro h1 h2
    exact ⟨h1, rfl, h2⟩
  | count + 1, start, st, st', h => by
    unfold runBands at h
    cases hpw : processWindow m st start with
    | error e => rw [hpw] at h; exact Except.noConfusion h
    | ok st1 =>
      rw [hpw] at h
      intro hne hlast
      rcases processWindow_hist hpw with ⟨he1, he2⟩ | he
      · have ih := runBands_hist m count (start + 1) st1 st' h
          (by rw [he1]; exact hne) (by rw [he1, he2]; exact hlast)
        rw [he1] at ih
        exact ih
      · have hne1 : st1.laneDistHist ≠ [] := by
          rw [he]; simp
        have hlast1 : st1.laneDistHist.getLast? = some st1.prevLaneDist := by
          rw [he]; exact List.getLast?_concat _
        have ih := runBands_hist m count (start + 1) st1 st' h hne1 hlast1
        refine ⟨ih.1, ?_, ih.2.2⟩
        rw [ih.2.1, he, List.head?_append_of_ne_nil _ hne]

/-! ### Base locator on a single vertical band -/

theorem leftxBase0_vband (H W c v : Nat) (hH : 0 < H) (hv : 0 < v)
    (hc : c < W / 2) : leftxBase0 (vbandMask H W c v) = c := by
  unfold leftxBase0 leftHalfHist
  rw [show midpointOf (vbandMask H W c v) = W / 2 from rfl]
  apply npArgmax_map_range (histogramOf (vbandMask H W c v)) (W / 2) c hc
  · rw [histogramOf_vband, if_pos rfl]
    exact Nat.mul_pos (by omega) hv
  · intro i hi
    rw [histogramOf_vband, if_neg hi]

theorem rightxBase0_vband (H W c v : Nat) (hH : 0 < H) (hv : 0 < v)
    (hclo : W / 2 ≤ c) (hchi : c < W) : rightxBase0 (vbandMask H W c v) = c := by
  unfold rightxBase0 rightHalfHist
  rw [show midpointOf (vbandMask H W c v) = W / 2 from rfl]
  rw [show (vbandMask H W c v).W = W from rfl]
  have harg : npArgmax ((List.range (W - W / 2)).map
      (fun i => histogramOf (vbandMask H W c v) (W / 2 + i))) = c - W / 2 := by
    apply npArgmax_map_range _ (W - W / 2) (c - W / 2) (by omega)
    · rw [show W / 2 + (c - W / 2) = c from by omega, histogramOf_vband, if_pos rfl]
      exact Nat.mul_pos (by omega) hv
    · intro i hi
      rw [histogramOf_vband, if_neg (by omega)]
  rw [harg]
  omega

/-! ### Claims -/

/-- C1 (code_bug evidence): on `c1Mask` the new right-half histogram peak is
310; with previous bases `last_left_base = 150`, `last_right_base = 300`,
the source's right-side guard (line 392) compares `last_left_base` with the
new right base, fires (|150-310|/310 ≈ 0.52 > 0.1), and discards the new
right base 310 in favor of 300 — although the right side's own drift
|300-310|/310 ≈ 0.032 does not exceed 0.1, so the claimed own-previous check
would have kept 310. Moreover, giving only a previous right base raises a
`TypeError`, because line 392 subtracts `None`. -/
theorem C1_right_drift_uses_left_base :
    rightxBase0 c1Mask = 310 ∧
    validateRight (some 150) (some 300) ((rightxBase0 c1Mask : Nat) : Int) = .ok 300 ∧
    driftGT 300 310 = false ∧
    |(300 : ℚ) - 310| / 310 ≤ 1 / 10 ∧
    validateRight none (some 300) 310 = .error PyErr.typeError := by
  refine ⟨by decide, by decide, by decide, by norm_num, by decide⟩

/-- C2 (counterexample): with 2 points on the left side and 3 valid points
on the right side, the fit stage does not return a per-side Unfit result —
it raises `NameError` (`UnboundLocalError` on the unassigned `left_fit`),
which the `except TypeError` clause does not catch, so the exception
escapes `fit_polynomial`. -/
theorem C2_cex :
    fitStage [((0 : Int), (0 : Int)), (1, 1)]
      [((0 : Int), (0 : Int)), (1, 1), (2, 4)] 5 = .error PyErr.nameError := by
  rfl

/-- C2 (amended): whenever either side has fewer than 3 points, the fit
stage raises an uncaught `NameError`: the per-frame call aborts with an
exception and no Unfit value or partial result is returned. (In the actual
pipeline this situation cannot arise: a successful `find_lane_pixels` hands
`fit_polynomial` exactly 15 points per side.) -/
theorem C2_amended :
    ∀ (leftPts rightPts : List (Int × Int)) (H : Nat),
      leftPts.length < 3 ∨ rightPts.length < 3 →
      fitStage leftPts rightPts H = .error PyErr.nameError := by
  intro lp rp H h
  unfold fitStage
  rcases h with h | h
  · rw [if_neg (by omega : ¬ 3 ≤ lp.length)]
  · by_cases hl3 : 3 ≤ lp.length
    · rw [if_pos hl3, if_neg (by omega : ¬ 3 ≤ rp.length)]
    · rw [if_neg hl3]

theorem C2_amended_witness :
    fitStage [((0 : Int), (0 : Int))] [] 5 = .error PyErr.nameError :=
  C2_amended [(0, 0)] [] 5 (Or.inl (by norm_num))

/-- C6 (counterexample): starting from the validated bases (5, 100) of
`crashMask`, band 0 finds both sides at column 5, so the band-1 right
window's low edge is `5 - 100 = -95 < 0`: the right side's low edge is not
clamped to 0. Python then reinterprets the negative bound, the sub-region
`[-95:105]` of a 200-wide mask is empty, and the run aborts with
`ValueError`. -/
theorem C6_cex :
    leftxBase0 crashMask = 5 ∧ rightxBase0 crashMask = 100 ∧
    processWindow crashMask (initState 5 100) 0 = .ok stCrash1 ∧
    winXRightLowOf stCrash1 = -95 ∧
    findLanePixelsSt crashMask none none = .error PyErr.valueError :=
  ⟨by decide, by decide, by decide, by decide, crashRunEq⟩

/-- C6 (amended): for every band, the left side's x low edge is clamped to
0 and the band's y low edge is clamped to 0; the right side's x low edge
has no clamp and can be negative (see the counterexample). -/
theorem C6_amended :
    ∀ (st : TrackState) (m : Mask) (w : Nat),
      0 ≤ winXLeftLowOf st ∧ 0 ≤ winYLowOf m w := by
  intro st m w
  constructor
  · unfold winXLeftLowOf
    split
    · exact le_refl 0
    · omega
  · unfold winYLowOf
    split
    · exact le_refl 0
    · omega

/-- C7: a zero histogram peak makes the drift ratio undefined (numpy
`inf`/`nan`, never an exception) and resolves by no adjustment: with a
previous base the previous base is kept, without one the 0 is accepted.
The right side's peak can never be 0 on a mask that reaches validation,
because `rightx_base = argmax + midpoint ≥ midpoint ≥ 1` whenever
`W ≥ 2`. -/
theorem C7_degenerate_histogram :
    (∀ (m : Mask) (prev : Int), leftxBase0 m = 0 →
      validateLeft (some prev) ((leftxBase0 m : Nat) : Int) = prev ∧
      validateLeft none ((leftxBase0 m : Nat) : Int) = 0) ∧
    (∀ m : Mask, 2 ≤ m.W → 1 ≤ rightxBase0 m) := by
  constructor
  · intro m prev h0
    rw [h0]
    constructor
    · by_cases hp : prev = 0
      · subst hp; simp [validateLeft, driftGT]
      · simp [validateLeft, driftGT, hp]
    · rfl
  · intro m hW
    unfold rightxBase0
    have h1 : 1 ≤ midpointOf m := by
      unfold midpointOf; omega
    omega

theorem C7_witness :
    validateLeft (some 7) ((leftxBase0 zeroMask : Nat) : Int) = 7 ∧
    1 ≤ rightxBase0 zeroMask :=
  ⟨(C7_degenerate_histogram.1 zeroMask 7 (by decide)).1,
   C7_degenerate_histogram.2 zeroMask (by norm_num [zeroMask])⟩

/-- The tracker state after band 0 of `gapMask`, starting from the seeded
initial state. -/
def stGap1 : TrackState :=
  { leftxCurrent := 50, rightxCurrent := 151, prevLaneDist := 101,
    laneDistHist := [101],
    leftLanePoints := [(50, 14)], rightLanePoints := [(151, 14)] }

/-- C3: for every band, the resolved positions and the width history follow
the four recentering cases of the source exactly: both found appends
`right - left` to the history and uses the found values; neither found
guesses each side at the midpoint of its own search range; only right found
sets `left = right - prev_lane_dist`; only left found sets
`right = left + prev_lane_dist`. On `gapMask` (left band found everywhere,
right half empty) every right point is the corresponding left point shifted
by exactly the last known width. -/
theorem C3_recentering :
    (∀ (m : Mask) (st st' : TrackState) (w : Nat) (lOpt rOpt : Option Int),
      sideCandidate m (winYLowOf m w).toNat (winYHighOf m w).toNat
        (winXLeftLowOf st) (winXLeftHighOf st) = .ok lOpt →
      sideCandidate m (winYLowOf m w).toNat (winYHighOf m w).toNat
        (winXRightLowOf st) (winXRightHighOf st) = .ok rOpt →
      processWindow m st w = .ok st' →
      ((∀ l r, lOpt = some l → rOpt = some r →
          st'.laneDistHist = st.laneDistHist ++ [r - l] ∧
          st'.prevLaneDist = r - l ∧
          st'.leftxCurrent = l ∧ st'.rightxCurrent = r) ∧
       (lOpt = none → rOpt = none →
          st'.leftxCurrent = Int.tdiv (winXLeftLowOf st + winXLeftHighOf st) 2 ∧
          st'.rightxCurrent = Int.tdiv (winXRightLowOf st + winXRightHighOf st) 2 ∧
          st'.laneDistHist = st.laneDistHist ∧
          st'.prevLaneDist = st.prevLaneDist) ∧
       (∀ r, lOpt = none → rOpt = some r →
          st'.leftxCurrent = r - st.prevLaneDist ∧ st'.rightxCurrent = r ∧
          st'.laneDistHist = st.laneDistHist ∧
          st'.prevLaneDist = st.prevLaneDist) ∧
       (∀ l, lOpt = some l → rOpt = none →
          st'.rightxCurrent = l + st.prevLaneDist ∧ st'.leftxCurrent = l ∧
          st'.laneDistHist = st.laneDistHist ∧
          st'.prevLaneDist = st.prevLaneDist))) ∧
    (findLanePixelsSt gapMask none none = .ok (stGapLit, 50, 151) ∧
     stGapLit.rightLanePoints.map Prod.fst =
       stGapLit.leftLanePoints.map (fun p => p.1 + stGapLit.prevLaneDist) ∧
     stGapLit.laneDistHist = [stGapLit.prevLaneDist]) := by
  constructor
  · intro m st st' w lOpt rOpt hl hr hpw
    unfold processWindow at hpw
    simp only [hl, hr] at hpw
    injection hpw with h2
    subst h2
    refine ⟨?_, ?_, ?_, ?_⟩
    · intro l r hL hR; subst hL; subst hR; simp [resolveOutcome]
    · intro hL hR; subst hL; subst hR; simp [resolveOutcome]
    · intro r hL hR; subst hL; subst hR; simp [resolveOutcome]
    · intro l hL hR; subst hL; subst hR; simp [resolveOutcome]
  · exact ⟨gapRunEq, by decide, by decide⟩

theorem C3_witness :
    stGap1.rightxCurrent = 50 + (initState 50 151).prevLaneDist ∧
    stGap1.leftxCurrent = 50 ∧
    stGap1.laneDistHist = (initState 50 151).laneDistHist ∧
    stGap1.prevLaneDist = (initState 50 151).prevLaneDist := by
  have h := C3_recentering.1 gapMask (initState 50 151) stGap1 0 (some 50) none
    (by decide) (by decide) (by decide)
  exact h.2.2.2 50 rfl rfl

/-- C4: with a previous left base and a nonzero new left histogram peak,
the validated left base is the previous one exactly when the relative
drift `|previous - new| / new` exceeds 1/10, and the new one otherwise;
in particular previous 100 against new peak 130 keeps 100, and previous
100 against new peak 105 accepts 105. -/
theorem C4_left_drift_clamp :
    (∀ (m : Mask) (prev : Int), 0 < prev → ((leftxBase0 m : Nat) : Int) ≠ 0 →
      validateLeft (some prev) ((leftxBase0 m : Nat) : Int) =
        if (1 : ℚ) / 10 <
            |((prev : ℚ) - ((leftxBase0 m : Nat) : ℚ)) / ((leftxBase0 m : Nat) : ℚ)|
        then prev else ((leftxBase0 m : Nat) : Int)) ∧
    leftxBase0 c4m130 = 130 ∧ leftxBase0 c4m105 = 105 ∧
    validateLeft (some 100) ((leftxBase0 c4m130 : Nat) : Int) = 100 ∧
    validateLeft (some 100) ((leftxBase0 c4m105 : Nat) : Int) = 105 := by
  refine ⟨?_, by decide, by decide, by decide, by decide⟩
  intro m prev hpos hne
  have hiff := driftGT_iff prev ((leftxBase0 m : Nat) : Int) hne
  push_cast at hiff
  have hval : validateLeft (some prev) ((leftxBase0 m : Nat) : Int) =
      if driftGT prev ((leftxBase0 m : Nat) : Int) = true then prev
      else ((leftxBase0 m : Nat) : Int) := rfl
  rw [hval]
  by_cases hd : driftGT prev ((leftxBase0 m : Nat) : Int) = true
  · rw [if_pos hd, if_pos (hiff.1 hd)]
  · rw [if_neg hd, if_neg (fun hq => hd (hiff.2 hq))]

theorem C4_witness :
    validateLeft (some 100) ((leftxBase0 c4m130 : Nat) : Int) =
      if (1 : ℚ) / 10 <
          |(((100 : Int) : ℚ) - ((leftxBase0 c4m130 : Nat) : ℚ)) /
            ((leftxBase0 c4m130 : Nat) : ℚ)|
      then 100 else ((leftxBase0 c4m130 : Nat) : Int) :=
  C4_left_drift_clamp.1 c4m130 100 (by norm_num) (by decide)

/-! ### Helper lemmas for the acceptance theorem -/

theorem get_npArgmax_map {α : Type} (f : α → Nat) (l : List α) (hne : l ≠ [])
    (hlt : npArgmax (l.map f) < l.length) :
    f (l.get ⟨npArgmax (l.map f), hlt⟩) = npMax (l.map f) := by
  have hne2 : l.map f ≠ [] := fun hcon => hne (List.map_eq_nil.1 hcon)
  have hlt2 : npArgmax (l.map f) < (l.map f).length := npArgmax_lt_length hne2
  have h := get_npArgmax hlt2
  rw [List.get_map] at h
  exact h

theorem sliceCols_get (W : Nat) (lo hi : Int) (i : Nat)
    (h : i < (sliceCols W lo hi).length) :
    (sliceCols W lo hi).get ⟨i, h⟩ = pyIdx W lo + i := by
  unfold sliceCols at h ⊢
  rw [List.get_range']
  omega

/-- C5: a candidate is accepted for a band only when the column sum of its
column over the band's sub-region strictly exceeds `min_pixels = 2550` and
the candidate differs from the raw low bound of the search range; if no
column's sum exceeds the threshold, the side is not found. (The bound
hypotheses say the low edge, as for the left side after clamping, lies
inside the mask, so that the candidate column index is the slice start plus
the argmax offset.) -/
theorem C5_candidate_acceptance :
    ∀ (m : Mask) (yLow yHigh : Nat) (xLow xHigh : Int),
      0 ≤ xLow → xLow.toNat ≤ m.W →
      ((∀ x : Int, sideCandidate m yLow yHigh xLow xHigh = .ok (some x) →
          x ≠ xLow ∧ minPixels < colSumRange m yLow yHigh x.toNat) ∧
       (npMax ((sliceCols m.W xLow xHigh).map
           (fun col => colSumRange m yLow yHigh col)) ≤ minPixels →
         ∀ r, sideCandidate m yLow yHigh xLow xHigh = .ok r → r = none)) := by
  intro m yLow yHigh xLow xHigh h0 hW
  have hpy : pyIdx m.W xLow = xLow.toNat := by
    unfold pyIdx
    rw [if_neg (by omega : ¬ xLow < 0)]
    exact min_eq_left hW
  constructor
  · intro x hx
    unfold sideCandidate at hx
    by_cases hemp : sliceCols m.W xLow xHigh = []
    · rw [if_pos hemp] at hx; exact Except.noConfusion hx
    · rw [if_neg hemp] at hx
      by_cases hth : minPixels < npMax ((sliceCols m.W xLow xHigh).map
          (fun col => colSumRange m yLow yHigh col))
      · rw [if_pos hth] at hx
        by_cases hz : ((npArgmax ((sliceCols m.W xLow xHigh).map
              (fun col => colSumRange m yLow yHigh col)) : Nat) : Int) + xLow = xLow
        · rw [if_pos hz] at hx
          injection hx with hx2
          exact Option.noConfusion hx2
        · rw [if_neg hz] at hx
          injection hx with hx2
          injection hx2 with hx3
          constructor
          · rw [← hx3]; exact hz
          · have hlt2 : npArgmax ((sliceCols m.W xLow xHigh).map
                (fun col => colSumRange m yLow yHigh col)) <
                (sliceCols m.W xLow xHigh).length := by
              have h1 : ((sliceCols m.W xLow xHigh).map
                  (fun col => colSumRange m yLow yHigh col)) ≠ [] :=
                fun hcon => hemp (List.map_eq_nil.1 hcon)
              have h2 := npArgmax_lt_length h1
              rw [List.length_map] at h2
              exact h2
            have hkey := get_npArgmax_map
              (fun col => colSumRange m yLow yHigh col)
              (sliceCols m.W xLow xHigh) hemp hlt2
            rw [sliceCols_get, hpy] at hkey
            have hxt : x.toNat = xLow.toNat + npArgmax ((sliceCols m.W xLow xHigh).map
                (fun col => colSumRange m yLow yHigh col)) := by
              rw [← hx3, Int.add_comm, Int.toNat_add h0 (Int.natCast_nonneg _),
                Int.toNat_natCast]
            rw [hxt, hkey]
            exact hth
      · rw [if_neg hth] at hx
        injection hx with hx2
        exact Option.noConfusion hx2
  · intro hle r hr
    unfold sideCandidate at hr
    by_cases hemp : sliceCols m.W xLow xHigh = []
    · rw [if_pos hemp] at hr; exact Except.noConfusion hr
    · rw [if_neg hemp, if_neg (Nat.not_lt.2 hle)] at hr
      injection hr with hr2
      exact hr2.symm

theorem C5_witness :
    (130 : Int) ≠ 0 ∧
    minPixels < colSumRange c5Mask 1 2 (130 : Int).toNat :=
  (C5_candidate_acceptance c5Mask 1 2 0 200 (by norm_num) (by decide)).1
    130 (by decide)

/-- C8 (counterexample): `crashMask` satisfies the claim's hypotheses
`H ≥ nwindows` and `W ≥ 2·margin`, yet the tracker does not emit any
points: band 0 finds both sides at column 5, band 1's right window
`[-95, 105)` normalizes to an empty Python slice, and `np.max` raises
`ValueError`, aborting `find_lane_pixels`. -/
theorem C8_cex :
    nwindows ≤ crashMask.H ∧ 2 * margin ≤ crashMask.W ∧
    findLanePixelsSt crashMask none none = .error PyErr.valueError :=
  ⟨by decide, by decide, crashRunEq⟩

/-- C8 (amended): whenever `find_lane_pixels` completes without a numpy
error, it emits exactly `nwindows = 15` points per side, one per band in
bottom-to-top band order, each at its band's vertical midpoint `y_index`;
completion is not guaranteed under the claim's hypotheses alone (see the
counterexample). -/
theorem C8_amended :
    ∀ (m : Mask) (lastL lastR : Option Int) (st : TrackState) (lb rb : Int),
      findLanePixelsSt m lastL lastR = .ok (st, lb, rb) →
      st.leftLanePoints.length = nwindows ∧
      st.rightLanePoints.length = nwindows ∧
      (∀ i (hi : i < st.leftLanePoints.length),
        (st.leftLanePoints.get ⟨i, hi⟩).2 = yIndexOf m i) ∧
      (∀ i (hi : i < st.rightLanePoints.length),
        (st.rightLanePoints.get ⟨i, hi⟩).2 = yIndexOf m i) := by
  intro m lastL lastR st lb rb h
  unfold findLanePixelsSt at h
  by_cases hmid : midpointOf m = 0
  · rw [if_pos hmid] at h; exact Except.noConfusion h
  · rw [if_neg hmid] at h
    cases hvr : validateRight lastL lastR ((rightxBase0 m : Nat) : Int) with
    | error e => simp only [hvr] at h; exact Except.noConfusion h
    | ok rb0 =>
      simp only [hvr] at h
      cases hrb : runBands m 0 nwindows
          (initState (validateLeft lastL ((leftxBase0 m : Nat) : Int)) rb0) with
      | error e => simp only [hrb] at h; exact Except.noConfusion h
      | ok st1 =>
        simp only [hrb] at h
        injection h with h2
        rw [Prod.mk.injEq, Prod.mk.injEq] at h2
        obtain ⟨h2a, h2b, h2c⟩ := h2
        rw [h2a] at hrb
        rcases runBands_points m nwindows 0 _ st hrb with
          ⟨L, R, hL, hR, hLl, hRl, hLy, hRy⟩
        have hL2 : st.leftLanePoints = L := by
          rw [hL]; simp [initState]
        have hR2 : st.rightLanePoints = R := by
          rw [hR]; simp [initState]
        refine ⟨by rw [hL2, hLl], by rw [hR2, hRl], ?_, ?_⟩
        · intro i hi
          have hi2 : i < L.length := by rw [← hL2]; exact hi
          have h3 := hLy i hi2
          rw [Nat.zero_add] at h3
          rw [List.get_of_eq hL2 ⟨i, hi⟩]
          exact h3
        · intro i hi
          have hi2 : i < R.length := by rw [← hR2]; exact hi
          have h3 := hRy i hi2
          rw [Nat.zero_add] at h3
          rw [List.get_of_eq hR2 ⟨i, hi⟩]
          exact h3

theorem C8_witness :
    stGapLit.leftLanePoints.length = nwindows ∧
    stGapLit.rightLanePoints.length = nwindows := by
  have h := C8_amended gapMask none none stGapLit 50 151 gapRunEq
  exact ⟨h.1, h.2.1⟩

/-- C9: the histogram base locator sums the bottom-half rows column-wise
and takes per-half argmaxes (the right one shifted by `midpoint`): on a
mask whose only bright pixels form a single vertical band at column `c`,
the base returned for the half containing `c` is exactly `c`; and with no
previous bases, the bases returned by `find_lane_pixels` are exactly these
histogram peaks. -/
theorem C9_histogram_base_locator :
    (∀ H W c v : Nat, 0 < H → 0 < v → c < W →
      (c < W / 2 → leftxBase0 (vbandMask H W c v) = c) ∧
      (W / 2 ≤ c → rightxBase0 (vbandMask H W c v) = c)) ∧
    (∀ (m : Mask) (st : TrackState) (lb rb : Int),
      findLanePixelsSt m none none = .ok (st, lb, rb) →
      lb = ((leftxBase0 m : Nat) : Int) ∧ rb = ((rightxBase0 m : Nat) : Int)) := by
  constructor
  · intro H W c v hH hv hc
    exact ⟨fun h2 => leftxBase0_vband H W c v hH hv h2,
           fun h2 => rightxBase0_vband H W c v hH hv h2 hc⟩
  · intro m st lb rb h
    unfold findLanePixelsSt at h
    by_cases hmid : midpointOf m = 0
    · rw [if_pos hmid] at h; exact Except.noConfusion h
    · rw [if_neg hmid] at h
      simp only [validateLeft, validateRight] at h
      cases hrb : runBands m 0 nwindows
          (initState ((leftxBase0 m : Nat) : Int) ((rightxBase0 m : Nat) : Int)) with
      | error e => simp only [hrb] at h; exact Except.noConfusion h
      | ok st1 =>
        simp only [hrb] at h
        injection h with h2
        rw [Prod.mk.injEq, Prod.mk.injEq] at h2
        exact ⟨h2.2.1.symm, h2.2.2.symm⟩

theorem C9_witness :
    ((50 : Int) = ((leftxBase0 gapMask : Nat) : Int) ∧
     (151 : Int) = ((rightxBase0 gapMask : Nat) : Int)) ∧
    leftxBase0 (vbandMask 4 10 3 2) = 3 ∧
    rightxBase0 (vbandMask 4 10 7 2) = 7 := by
  refine ⟨C9_histogram_base_locator.2 gapMask stGapLit 50 151 gapRunEq, ?_, ?_⟩
  · exact (C9_histogram_base_locator.1 4 10 3 2 (by norm_num) (by norm_num)
      (by norm_num)).1 (by norm_num)
  · exact (C9_histogram_base_locator.1 4 10 7 2 (by norm_num) (by norm_num)
      (by norm_num)).2 (by norm_num)

/-- C10: on every successful run the width history is nonempty — it starts
with the seed `rightx_base - leftx_base` recorded before the first band —
its last element is the `prev_lane_dist` used for gap-filling at every
band, and the returned average is the true arithmetic mean of this
nonempty list (`avg * length = sum` with `length ≠ 0`). -/
theorem C10_width_history :
    ∀ (m : Mask) (lastL lastR : Option Int) (st : TrackState) (lb rb : Int),
      findLanePixelsSt m lastL lastR = .ok (st, lb, rb) →
      st.laneDistHist ≠ [] ∧
      st.laneDistHist.head? = some (rb - lb) ∧
      st.laneDistHist.getLast? = some st.prevLaneDist ∧
      npAverage st.laneDistHist * ((st.laneDistHist.length : Nat) : ℚ) =
        ((st.laneDistHist.sum : Int) : ℚ) := by
  intro m lastL lastR st lb rb h
  unfold findLanePixelsSt at h
  by_cases hmid : midpointOf m = 0
  · rw [if_pos hmid] at h; exact Except.noConfusion h
  · rw [if_neg hmid] at h
    cases hvr : validateRight lastL lastR ((rightxBase0 m : Nat) : Int) with
    | error e => simp only [hvr] at h; exact Except.noConfusion h
    | ok rb0 =>
      simp only [hvr] at h
      cases hrb : runBands m 0 nwindows
          (initState (validateLeft lastL ((leftxBase0 m : Nat) : Int)) rb0) with
      | error e => simp only [hrb] at h; exact Except.noConfusion h
      | ok st1 =>
        simp only [hrb] at h
        injection h with h2
        rw [Prod.mk.injEq, Prod.mk.injEq] at h2
        obtain ⟨h2a, h2b, h2c⟩ := h2
        rw [h2a] at hrb
        have hinv := runBands_hist m nwindows 0
          (initState (validateLeft lastL ((leftxBase0 m : Nat) : Int)) rb0) st hrb
          (by simp [initState]) (by simp [initState])
        refine ⟨hinv.1, ?_, hinv.2.2, ?_⟩
        · rw [hinv.2.1, ← h2b, ← h2c]; simp [initState]
        · unfold npAverage
          apply div_mul_cancel₀
          have hlen : st.laneDistHist.length ≠ 0 := by
            intro hz
            exact hinv.1 (List.length_eq_zero.1 hz)
          exact_mod_cast hlen

theorem C10_witness :
    stGapLit.laneDistHist ≠ [] ∧
    stGapLit.laneDistHist.head? = some ((151 : Int) - 50) ∧
    stGapLit.laneDistHist.getLast? = some stGapLit.prevLaneDist := by
  have h := C10_width_history gapMask none none stGapLit 50 151 gapRunEq
  exact ⟨h.1, h.2.1, h.2.2.1⟩

end Graph

